import Mathlib

/-!
Verification of the PieZense pneumatic-systems library
(`src/piezense/piezense.py`) against its natural-language specification.

The implemented parts of the source (`__init__`, `_System`, `addSystem`,
`_addSystem`, `connect`, `_connect`, `isEverythingConnected`,
`getPressureReadings`) are embedded directly.  Components that the source
declares only as stubs (`setMode`, `addForwarding`, `clearAllForwarding`,
telemetry decode) are modelled from the specification, as marked on each
definition.
-/

namespace PieZense

/-- Embeds the connectivity-relevant part of a `bleak.BleakClient`:
the only field the library reads is `is_connected`. -/
structure Client where
  is_connected : Bool
deriving DecidableEq

/-- Embeds the inner class `PieZense._System`: a registered system with its
Bluetooth name, declared channel count, and optional transport client
(`self.client = None` at registration). -/
structure System where
  system_name : String
  channel_count : Nat
  client : Option Client
deriving DecidableEq

/-- Embeds the instance state set up by `PieZense.__init__`:
`_scale_factor`, `_systems` and `_pressures` (`_reconnect_task` carries no
state the claims touch).  The Python scale factor is a float; it is modelled
as an integer scalar, which suffices because the code never applies it. -/
structure PZState where
  scale_factor : Int
  systems : List System
  pressures : List (List Int)
deriving DecidableEq

/-- Embeds `PieZense.__init__(scale_factor)`: empty registry, empty store. -/
def initState (scale_factor : Int) : PZState :=
  { scale_factor := scale_factor, systems := [], pressures := [] }

/-- Embeds `PieZense._addSystem`: append a `_System`, append a row
`[0]*channel_count` to `_pressures`, return `len(self._systems) - 1`. -/
def addSystem (st : PZState) (system_name : String) (channel_count : Nat) :
    PZState × Nat :=
  let st1 : PZState :=
    { st with
      systems := st.systems ++ [⟨system_name, channel_count, none⟩]
      pressures := st.pressures ++ [List.replicate channel_count 0] }
  (st1, st1.systems.length - 1)

/-- A sequence of `addSystem` calls, collecting the returned indices. -/
def addSystems : PZState → List (String × Nat) → PZState × List Nat
  | st, [] => (st, [])
  | st, (n, c) :: rest =>
    let r1 := addSystem st n c
    let r2 := addSystems r1.1 rest
    (r2.1, r1.2 :: r2.2)

/-- Python truthiness of `system.client and system.client.is_connected`. -/
def clientConnected : Option Client → Bool
  | none => false
  | some c => c.is_connected

/-- Embeds `PieZense.isEverythingConnected`:
`all((system.client and system.client.is_connected) for system in self._systems)`. -/
def isEverythingConnected (st : PZState) : Bool :=
  st.systems.all (fun sys => clientConnected sys.client)

/-- Embeds `PieZense.getPressureReadings` by value: `return self._pressures`.
No scaling is applied anywhere in the source. -/
def getPressureReadings (st : PZState) : List (List Int) :=
  st.pressures

/-- What the spec says `getPressureReadings` returns: every stored raw value
multiplied uniformly by the configured scale factor.  Stated from the spec's
words, for comparison with the embedded `getPressureReadings`. -/
def scaledReadings (st : PZState) : List (List Int) :=
  st.pressures.map (fun row => row.map (fun v => v * st.scale_factor))

/-- The transport environment seen by one pass of the reconnect loop:
for a system name, `none` means discovery found no device; `some b` means a
device was found and the subsequent `connect()` left `is_connected = b`. -/
def Transport := String → Option Bool

/-- Embeds the body of the `for` loop inside `PieZense._connect` for one
system: skip when already connected; otherwise scan by name, and on
discovery connect, keeping the client on success and resetting it to `None`
on failure (a failed scan leaves the client as it was). -/
def trySystem (env : Transport) (s : System) : System :=
  if clientConnected s.client then s
  else
    match env s.system_name with
    | none => s
    | some b => if b then { s with client := some ⟨true⟩ } else { s with client := none }

/-- Embeds one full iteration of the `while True:` loop in
`PieZense._connect`: every registered system is visited in order; the
pressure store is untouched. -/
def connectIteration (env : Transport) (st : PZState) : PZState :=
  { st with systems := st.systems.map (trySystem env) }

/-- Embeds `asyncio.run(self._connect())` with explicit fuel: the call
returns a value only if the coroutine completes within `fuel` iterations of
its `while True:` loop; `none` means it is still running.  The loop body
contains no `return` or `break`, so each recursion consumes fuel without
ever producing a value. -/
def connectRun (env : Transport) : PZState → Nat → Option PZState
  | _, 0 => none
  | st, fuel + 1 => connectRun env (connectIteration env st) fuel

/-- Result of a telemetry decode: the decoded per-channel values, and the
list of channel indices reported missing by the `TruncatedFrame` condition
(empty when the frame was complete). -/
structure DecodeResult where
  values : List Nat
  truncated : List Nat
deriving DecidableEq

/-- Modelled from the spec: the Telemetry Codec's decode step is missing
from `src/` (the active class has no notification handler; only a
commented-out sketch exists).  Per the spec, the first
`channel_count * 2` bytes of the payload are read as `channel_count`
little-endian unsigned 16-bit integers in channel-index order; when the
payload is shorter, only the complete 2-byte pairs present are decoded and
the remaining channel indices are signalled as a `TruncatedFrame`
condition; trailing bytes are ignored. -/
def decode (channel_count : Nat) (payload : List Nat) : DecodeResult :=
  let pairs := min channel_count (payload.length / 2)
  { values := (List.range pairs).map
      (fun i => payload.getD (2 * i) 0 + 256 * payload.getD (2 * i + 1) 0)
    truncated := List.range' pairs (channel_count - pairs) }

/-- A forwarding endpoint: (system index, channel index). -/
abbrev Endpoint := Nat × Nat

/-- A forwarding rule: source endpoint, target endpoint, and the opaque
transform applied to forwarded pressure values. -/
structure Rule where
  src : Endpoint
  tgt : Endpoint
  xform : Int → Int

/-- Per-entry outcome of a command or rule installation, from the spec's
error taxonomy. -/
inductive Status where
  | ok
  | writeFailed
  | cycleRejected
  | notFound
deriving DecidableEq

/-- Modelled from the spec: cycle detection "must run graph reachability
(depth-first search) over the current rule set before insertion".
Fuel-bounded reachability along source→target edges; at fuel `n`, paths of
at most `n` edges are considered, so fuel equal to the rule count covers
every simple path. -/
def reachable (rules : List Rule) : Nat → Endpoint → Endpoint → Bool
  | 0, a, b => decide (a = b)
  | fuel + 1, a, b =>
    decide (a = b)
      || rules.any (fun r => decide (r.src = a) && reachable rules fuel r.tgt b)

/-- Modelled from the spec: an endpoint is valid when its channel index is
below the declared channel count of a registered system. -/
def validEndpoint (counts : List Nat) (e : Endpoint) : Bool :=
  decide (e.2 < counts.getD e.1 0)

/-- Modelled from the spec: `addForwarding` is a stub (`pass`) in the
source.  Per the spec it validates both endpoints against the registered
channel counts, rejects with `CycleRejected` — installing nothing — any
rule whose source is reachable from its own target, and otherwise installs
the rule, replacing any existing rule with the same source.  The rule table
accompanying the status is the table after the call. -/
def addForwarding (counts : List Nat) (rules : List Rule) (r : Rule) :
    Status × List Rule :=
  if !(validEndpoint counts r.src && validEndpoint counts r.tgt) then
    (Status.notFound, rules)
  else if reachable rules rules.length r.tgt r.src then
    (Status.cycleRejected, rules)
  else
    (Status.ok, r :: rules.filter (fun q => !decide (q.src = r.src)))

/-- A configuration write: target system index, channel index and the
key/value configuration data, as in `sendConfig`'s signature. -/
structure ConfigEntry where
  system_num : Nat
  channel_num : Nat
  config_data : List (String × Int)

/-- An executed sequencer action, recorded in order of execution together
with its per-entry outcome. -/
inductive Event where
  | clearForwarding
  | sendConfig (entry : ConfigEntry) (result : Status)
  | wait (seconds : Nat)
  | installForwarding (rule : Rule) (result : Status)

/-- The mode dictionary consumed by `setMode`, from its docstring:
`reset_config`, `wait_time`, `forwarding`, `final_config`. -/
structure ModeSpec where
  reset_config : List ConfigEntry
  wait_time : Nat
  forwarding : List Rule
  final_config : List ConfigEntry

/-- Command-sequencer state: the forwarding rule table and the ordered log
of executed actions with their per-entry outcomes (the spec's collected
failure results). -/
structure SeqState where
  rules : List Rule
  log : List Event

/-- Modelled from the spec: `clearAllForwarding` is a stub (`pass`) in the
source; per the spec it removes every forwarding rule. -/
def clearAllForwarding (st : SeqState) : SeqState :=
  { rules := [], log := st.log ++ [Event.clearForwarding] }

/-- Modelled from the spec: sending one config entry; the transport outcome
`sendOk` decides success, a failure is recorded and execution continues
(failures are reported per entry, never aborting the batch). -/
def sendConfigEntry (sendOk : ConfigEntry → Bool) (st : SeqState)
    (e : ConfigEntry) : SeqState :=
  { st with
    log := st.log
      ++ [Event.sendConfig e (if sendOk e then Status.ok else Status.writeFailed)] }

/-- Modelled from the spec: installing one forwarding entry via the
Forwarding Engine (`addForwarding` semantics, including cycle rejection),
recording the per-entry outcome and continuing. -/
def installEntry (counts : List Nat) (st : SeqState) (r : Rule) : SeqState :=
  { rules := (addForwarding counts st.rules r).2
    log := st.log
      ++ [Event.installForwarding r (addForwarding counts st.rules r).1] }

/-- Modelled from the spec: `setMode` is a stub (`pass`) in the source; its
docstring and the spec prescribe five steps in order — clear all
forwarding, send every `reset_config` entry, wait `wait_time`, install
every `forwarding` entry, send every `final_config` entry — with
per-entry failures collected and execution always proceeding to the next
step (fail-forward, no rollback). -/
def setMode (counts : List Nat) (sendOk : ConfigEntry → Bool)
    (mode : ModeSpec) (st : SeqState) : SeqState :=
  let st1 := clearAllForwarding st
  let st2 := mode.reset_config.foldl (sendConfigEntry sendOk) st1
  let st3 : SeqState := { st2 with log := st2.log ++ [Event.wait mode.wait_time] }
  let st4 := mode.forwarding.foldl (installEntry counts) st3
  mode.final_config.foldl (sendConfigEntry sendOk) st4

/-- The one notion of "this system is in the Connected state" the code has:
a client handle is present and reports `is_connected`. -/
def isConnectedSystem (sys : System) : Prop :=
  ∃ c, sys.client = some c ∧ c.is_connected = true

/-- Row shape invariant of the pressure store: one row per registered
system, row `i` of length equal to system `i`'s declared channel count,
every entry still the initial `0`. -/
def storeInvariant (st : PZState) : Prop :=
  st.pressures = st.systems.map (fun s => List.replicate s.channel_count 0)

namespace Alias

/-- Python lists are heap objects handled by reference; this heap holds the
list-of-rows objects that `self._pressures` and callers can refer to. -/
structure Mem where
  heap : List (List (List Int))
deriving DecidableEq

/-- The reference-level view of a `PieZense` instance: `self._pressures` is
an address into the heap, not a value. -/
structure Obj where
  pressuresAddr : Nat
deriving DecidableEq

/-- Embeds `getPressureReadings`, i.e. `return self._pressures`, at the
reference level: the caller receives the very address the store uses, not a
copy of the data. -/
def getPressureReadingsRef (o : Obj) : Nat := o.pressuresAddr

/-- Reading the list a reference points to. -/
def deref (m : Mem) (a : Nat) : List (List Int) := m.heap.getD a []

/-- A store update: telemetry (or `_addSystem`) writing new rows into the
object `self._pressures` refers to. -/
def storeUpdate (m : Mem) (o : Obj) (rows : List (List Int)) : Mem :=
  ⟨m.heap.set o.pressuresAddr rows⟩

/-- The caller mutating the list it received from `getPressureReadings`. -/
def mutate (m : Mem) (a : Nat) (rows : List (List Int)) : Mem :=
  ⟨m.heap.set a rows⟩

end Alias

lemma addSystems_spec (calls : List (String × Nat)) :
    ∀ st : PZState,
      (addSystems st calls).1.systems
          = st.systems ++ calls.map (fun p => ⟨p.1, p.2, none⟩)
      ∧ (addSystems st calls).1.pressures
          = st.pressures ++ calls.map (fun p => List.replicate p.2 0)
      ∧ (addSystems st calls).2 = List.range' st.systems.length calls.length := by
  induction calls with
  | nil => intro st; simp [addSystems]
  | cons hd tl ih =>
    intro st
    obtain ⟨h1, h2, h3⟩ := ih
      { st with
        systems := st.systems ++ [⟨hd.1, hd.2, none⟩]
        pressures := st.pressures ++ [List.replicate hd.2 0] }
    refine ⟨?_, ?_, ?_⟩
    · simp only [addSystems, addSystem, h1]
      simp
    · simp only [addSystems, addSystem, h2]
      simp
    · simp only [addSystems, addSystem, h3]
      simp [List.range'_succ]

/-- C9: with no systems registered, `isEverythingConnected()` is `all` of an
empty generator, hence vacuously `true`. -/
theorem isEverythingConnected_empty (scale : Int) :
    isEverythingConnected (initState scale) = true := rfl

/-- C6: `isEverythingConnected` returns `true` iff every registered system
currently holds a client that reports connected — the code's Connected
state. -/
theorem isEverythingConnected_iff (st : PZState) :
    isEverythingConnected st = true ↔ ∀ sys ∈ st.systems, isConnectedSystem sys := by
  unfold isEverythingConnected
  rw [List.all_eq_true]
  refine forall_congr' fun sys => forall_congr' fun _ => ?_
  cases h : sys.client with
  | none => simp [clientConnected, isConnectedSystem, h]
  | some c => simp [clientConnected, isConnectedSystem, h]

/-- C2 (code bug): `connect()` runs `asyncio.run(self._connect())`, and
`_connect` is a `while True:` loop with no exit, so for every transport
environment, every starting state and every number of loop iterations the
run has not completed: the caller of `connect()` is blocked forever instead
of merely having started a background activity. -/
theorem connectRun_never_returns (env : Transport) (st : PZState) (fuel : Nat) :
    connectRun env st fuel = none := by
  induction fuel generalizing st with
  | zero => rfl
  | succ n ih => exact ih (connectIteration env st)

/-- C7 (code bug): with scale factor `2` and a stored raw reading `5`,
`getPressureReadings` returns the raw `5`, not the scaled `10` the spec
requires — the configured scale factor is stored by `__init__` but never
applied to any returned reading. -/
theorem getPressureReadings_unscaled :
    getPressureReadings
        { scale_factor := 2, systems := [⟨"Pod-A", 1, none⟩],
          pressures := [[5]] } = [[5]]
    ∧ scaledReadings
        { scale_factor := 2, systems := [⟨"Pod-A", 1, none⟩],
          pressures := [[5]] } = [[10]]
    ∧ getPressureReadings
        { scale_factor := 2, systems := [⟨"Pod-A", 1, none⟩],
          pressures := [[5]] }
      ≠ scaledReadings
        { scale_factor := 2, systems := [⟨"Pod-A", 1, none⟩],
          pressures := [[5]] } := by
  refine ⟨rfl, by decide, by decide⟩

/-- C10: starting from a fresh instance, the `i`-th `addSystem` call returns
index `i`; afterwards the pressure store holds exactly one all-zero row per
registered system, row `i` of length equal to system `i`'s declared channel
count; and the only other state-mutating operation, an iteration of the
reconnect loop, changes neither the store nor the declared channel counts
(every remaining public operation is a stub or a pure read). -/
theorem addSystem_registry_invariant (scale : Int) (calls : List (String × Nat))
    (env : Transport) (st : PZState) :
    (addSystems (initState scale) calls).2 = List.range calls.length
    ∧ storeInvariant (addSystems (initState scale) calls).1
    ∧ getPressureReadings (addSystems (initState scale) calls).1
        = ((addSystems (initState scale) calls).1.systems).map
            (fun s => List.replicate s.channel_count 0)
    ∧ getPressureReadings (connectIteration env st) = getPressureReadings st
    ∧ (connectIteration env st).systems.map System.channel_count
        = st.systems.map System.channel_count := by
  obtain ⟨h1, h2, h3⟩ := addSystems_spec calls (initState scale)
  have hsys : (addSystems (initState scale) calls).1.systems
      = calls.map (fun p => ⟨p.1, p.2, none⟩) := by
    simpa [initState] using h1
  have hpre : (addSystems (initState scale) calls).1.pressures
      = calls.map (fun p => List.replicate p.2 0) := by
    simpa [initState] using h2
  have hinv : storeInvariant (addSystems (initState scale) calls).1 := by
    unfold storeInvariant
    rw [hsys, hpre, List.map_map]
    rfl
  refine ⟨?_, hinv, ?_, ?_, ?_⟩
  · rw [h3]
    simp [initState, List.range_eq_range']
  · simpa [getPressureReadings] using hinv
  · rfl
  · unfold connectIteration
    simp only [List.map_map]
    refine List.map_congr_left fun s _ => ?_
    simp only [Function.comp]
    unfold trySystem
    split
    · rfl
    · cases env s.system_name with
      | none => rfl
      | some b => cases b <;> rfl

lemma decode_pairs_of_complete {c : Nat} {p : List Nat} (h : 2 * c ≤ p.length) :
    min c (p.length / 2) = c := by
  have : c ≤ p.length / 2 := Nat.le_div_iff_mul_le (by norm_num) |>.mpr
    (by omega)
  omega

lemma decode_pairs_of_short {c : Nat} {p : List Nat} (h : p.length < 2 * c) :
    min c (p.length / 2) = p.length / 2 := by
  have : p.length / 2 < c := Nat.div_lt_of_lt_mul (by omega)
  omega

lemma decode_values_get (c : Nat) (p : List Nat) (i : Nat)
    (hi : i < min c (p.length / 2)) :
    (decode c p).values.get? i
      = some (p.getD (2 * i) 0 + 256 * p.getD (2 * i + 1) 0) := by
  unfold decode
  simp only [List.get?_eq_getElem?, List.getElem?_map]
  rw [List.getElem?_range hi]
  rfl

/-- C3: when the payload holds at least `2 * c` bytes, decode yields exactly
`c` values, value `i` being the little-endian 16-bit integer formed from
bytes `2*i` and `2*i+1`; bytes past the first `2*c` are ignored and no
`TruncatedFrame` is signalled.  In particular a 2-channel payload
`E5 03 F4 01` decodes to `[997, 500]`. -/
theorem decode_complete (c : Nat) (p : List Nat) (h : 2 * c ≤ p.length) :
    (decode c p).values.length = c
    ∧ (∀ i, i < c → (decode c p).values.get? i
          = some (p.getD (2 * i) 0 + 256 * p.getD (2 * i + 1) 0))
    ∧ decode c p = decode c (p.take (2 * c))
    ∧ (decode c p).truncated = []
    ∧ (decode 2 [229, 3, 244, 1]).values = [997, 500] := by
  have hpairs := decode_pairs_of_complete h
  refine ⟨?_, ?_, ?_, ?_, by decide⟩
  · unfold decode
    simp [hpairs]
  · intro i hi
    exact decode_values_get c p i (by omega)
  · have htk : (p.take (2 * c)).length = 2 * c := by
      simp [Nat.min_eq_left h]
    have hpairs2 : min c ((p.take (2 * c)).length / 2) = c := by
      rw [htk]; omega
    unfold decode
    rw [hpairs, hpairs2]
    have : ∀ i, i < c →
        (p.take (2 * c)).getD (2 * i) 0 = p.getD (2 * i) 0
        ∧ (p.take (2 * c)).getD (2 * i + 1) 0 = p.getD (2 * i + 1) 0 := by
      intro i hi
      constructor <;>
      · rw [List.getD, List.getD, List.get?_take (by omega)]
    simp only [DecodeResult.mk.injEq]
    refine ⟨List.map_congr_left fun i hmem => ?_, trivial⟩
    rw [List.mem_range] at hmem
    rw [(this i hmem).1, (this i hmem).2]
  · unfold decode
    rw [hpairs]
    simp

/-- C3 witness at the spec's scenario: device with 2 channels, payload
`E5 03 F4 01`. -/
theorem decode_complete_witness :
    2 * 2 ≤ ([229, 3, 244, 1] : List Nat).length
    ∧ (decode 2 [229, 3, 244, 1]).values = [997, 500] :=
  ⟨by decide, (decode_complete 2 [229, 3, 244, 1] (by decide)).2.2.2.2⟩

/-- C4: when the payload is shorter than `2 * c` bytes, decode produces
exactly the `⌊len/2⌋` complete pairs present — each value reading only byte
indices strictly below the payload length — fabricates none of the missing
channels (`values.length < c`), and signals `TruncatedFrame` for precisely
the channel indices from `⌊len/2⌋` up to `c - 1`. -/
theorem decode_truncated_safe (c : Nat) (p : List Nat) (h : p.length < 2 * c) :
    (decode c p).values.length = p.length / 2
    ∧ (∀ i, i < p.length / 2 →
          2 * i + 1 < p.length
          ∧ (decode c p).values.get? i
              = some (p.getD (2 * i) 0 + 256 * p.getD (2 * i + 1) 0))
    ∧ (decode c p).values.length < c
    ∧ (∀ j, j ∈ (decode c p).truncated ↔ p.length / 2 ≤ j ∧ j < c)
    ∧ (decode c p).truncated ≠ [] := by
  have hpairs := decode_pairs_of_short h
  have hlt : p.length / 2 < c := Nat.div_lt_of_lt_mul (by omega)
  have hlen : (decode c p).values.length = p.length / 2 := by
    unfold decode
    simp [hpairs]
  refine ⟨hlen, ?_, ?_, ?_, ?_⟩
  · intro i hi
    refine ⟨by omega, decode_values_get c p i (by omega)⟩
  · omega
  · intro j
    unfold decode
    rw [hpairs]
    simp only [List.mem_range'_1]
    omega
  · have : (decode c p).truncated.length = c - p.length / 2 := by
      unfold decode
      rw [hpairs]
      simp
    intro hnil
    rw [hnil] at this
    simp at this
    omega

/-- C4 witness: 2 channels, 3-byte payload `E5 03 F4` — one complete pair
decoded, channel 1 reported truncated. -/
theorem decode_truncated_safe_witness :
    ([229, 3, 244] : List Nat).length < 2 * 2
    ∧ (decode 2 [229, 3, 244]).values.length = ([229, 3, 244] : List Nat).length / 2
    ∧ (decode 2 [229, 3, 244]).truncated ≠ [] :=
  ⟨by decide, (decode_truncated_safe 2 [229, 3, 244] (by decide)).1,
    (decode_truncated_safe 2 [229, 3, 244] (by decide)).2.2.2.2⟩

lemma reachable_self (rules : List Rule) (fuel : Nat) (e : Endpoint) :
    reachable rules fuel e e = true := by
  cases fuel with
  | zero => simp [reachable]
  | succ n => simp [reachable]

/-- C5: after an `addForwarding` call successfully installs a rule `A → B`
(with `A ≠ B`), a subsequent `addForwarding` of `B → A` returns
`CycleRejected` and leaves the rule table exactly as it was before that
second call. -/
theorem addForwarding_cycle_rejected (counts : List Nat)
    (rules rules1 : List Rule) (a b : Endpoint) (f g : Int → Int)
    (hne : a ≠ b)
    (h1 : addForwarding counts rules ⟨a, b, f⟩ = (Status.ok, rules1)) :
    addForwarding counts rules1 ⟨b, a, g⟩ = (Status.cycleRejected, rules1) := by
  unfold addForwarding at h1
  split at h1
  · simp at h1
  · rename_i hvalid
    split at h1
    · simp at h1
    · simp only [Prod.mk.injEq, true_and] at h1
      have hva : validEndpoint counts a = true := by
        by_contra hc
        apply hvalid
        simp only [Bool.not_eq_true] at hc
        simp [hc]
      have hvb : validEndpoint counts b = true := by
        by_contra hc
        apply hvalid
        simp only [Bool.not_eq_true] at hc
        simp [hc]
      subst h1
      unfold addForwarding
      have hcond : (!(validEndpoint counts (Rule.mk b a g).src
          && validEndpoint counts (Rule.mk b a g).tgt)) = false := by
        simp [hva, hvb]
      rw [hcond]
      simp only [Bool.false_eq_true, if_false]
      have hreach :
          reachable (Rule.mk a b f :: List.filter (fun q => !decide (q.src = a)) rules)
            (Rule.mk a b f :: List.filter (fun q => !decide (q.src = a)) rules).length
            (Rule.mk b a g).tgt (Rule.mk b a g).src = true := by
        rw [List.length_cons]
        unfold reachable
        rw [List.any_cons]
        have hself := reachable_self
          (Rule.mk a b f :: List.filter (fun q => !decide (q.src = a)) rules)
          (List.filter (fun q => !decide (q.src = a)) rules).length b
        simp [hself]
      rw [hreach]
      simp

/-- C5 witness: two systems of one channel each; install (0,0)→(1,0), then
(1,0)→(0,0) is rejected with the table unchanged. -/
theorem addForwarding_cycle_rejected_witness :
    addForwarding [1, 1] [] ⟨(0, 0), (1, 0), fun x => x⟩
        = (Status.ok, [⟨(0, 0), (1, 0), fun x => x⟩])
    ∧ addForwarding [1, 1] [⟨(0, 0), (1, 0), fun x => x⟩]
          ⟨(1, 0), (0, 0), fun x => x⟩
        = (Status.cycleRejected, [⟨(0, 0), (1, 0), fun x => x⟩]) :=
  ⟨rfl,
    addForwarding_cycle_rejected [1, 1] [] [⟨(0, 0), (1, 0), fun x => x⟩]
      (0, 0) (1, 0) (fun x => x) (fun x => x) (by decide) rfl⟩

lemma foldl_sendConfig_spec (sendOk : ConfigEntry → Bool)
    (es : List ConfigEntry) :
    ∀ st : SeqState,
      (es.foldl (sendConfigEntry sendOk) st).log
          = st.log ++ es.map
              (fun e => Event.sendConfig e
                (if sendOk e then Status.ok else Status.writeFailed))
      ∧ (es.foldl (sendConfigEntry sendOk) st).rules = st.rules := by
  induction es with
  | nil => intro st; simp
  | cons e tl ih =>
    intro st
    obtain ⟨h1, h2⟩ := ih (sendConfigEntry sendOk st e)
    refine ⟨?_, ?_⟩
    · rw [List.foldl_cons, h1]
      simp [sendConfigEntry]
    · rw [List.foldl_cons, h2]
      simp [sendConfigEntry]

lemma foldl_install_spec (counts : List Nat) (fs : List Rule) :
    ∀ st : SeqState, ∃ results : List Status,
      results.length = fs.length
      ∧ (fs.foldl (installEntry counts) st).log
          = st.log ++ (fs.zip results).map
              (fun p => Event.installForwarding p.1 p.2) := by
  induction fs with
  | nil => intro st; exact ⟨[], rfl, by simp⟩
  | cons r tl ih =>
    intro st
    obtain ⟨rs, hlen, hlog⟩ := ih (installEntry counts st r)
    refine ⟨(addForwarding counts st.rules r).1 :: rs, by simp [hlen], ?_⟩
    rw [List.foldl_cons, hlog]
    simp [installEntry]

/-- C1: for every mode dictionary, every starting state and every transport
outcome, `setMode` executes exactly the five steps in order: the action log
it appends is the clear-forwarding action, then one send per `reset_config`
entry in batch order, then the `wait_time` wait, then one install per
`forwarding` entry in batch order, then one send per `final_config` entry
in batch order.  The equality holds for every outcome function `sendOk` —
in particular when entries of step 2 fail — so steps 3–5 are always
executed (fail-forward, no rollback); and step 1 really empties the rule
table before step 4 reinstalls. -/
theorem setMode_five_steps (counts : List Nat) (sendOk : ConfigEntry → Bool)
    (mode : ModeSpec) (st : SeqState) :
    ∃ installResults : List Status,
      installResults.length = mode.forwarding.length
      ∧ (setMode counts sendOk mode st).log
          = st.log
            ++ [Event.clearForwarding]
            ++ mode.reset_config.map
                (fun e => Event.sendConfig e
                  (if sendOk e then Status.ok else Status.writeFailed))
            ++ [Event.wait mode.wait_time]
            ++ (mode.forwarding.zip installResults).map
                (fun p => Event.installForwarding p.1 p.2)
            ++ mode.final_config.map
                (fun e => Event.sendConfig e
                  (if sendOk e then Status.ok else Status.writeFailed))
      ∧ (mode.reset_config.foldl (sendConfigEntry sendOk)
            (clearAllForwarding st)).rules = [] := by
  obtain ⟨h2log, h2rules⟩ :=
    foldl_sendConfig_spec sendOk mode.reset_config (clearAllForwarding st)
  obtain ⟨rs, hlen, h4log⟩ := foldl_install_spec counts mode.forwarding
    { rules := (mode.reset_config.foldl (sendConfigEntry sendOk)
        (clearAllForwarding st)).rules
      log := (mode.reset_config.foldl (sendConfigEntry sendOk)
        (clearAllForwarding st)).log ++ [Event.wait mode.wait_time] }
  obtain ⟨h5log, -⟩ := foldl_sendConfig_spec sendOk mode.final_config
    (mode.forwarding.foldl (installEntry counts)
      { rules := (mode.reset_config.foldl (sendConfigEntry sendOk)
          (clearAllForwarding st)).rules
        log := (mode.reset_config.foldl (sendConfigEntry sendOk)
          (clearAllForwarding st)).log ++ [Event.wait mode.wait_time] })
  refine ⟨rs, hlen, ?_, ?_⟩
  · unfold setMode
    rw [h5log, h4log]
    simp only [h2log]
    simp [clearAllForwarding, List.append_assoc]
  · rw [h2rules]
    rfl

/-- C8 counterexample: one registered 1-channel system, the store's rows
`[[0]]` held in heap cell 0.  A store update to `[[5]]` performed after the
snapshot was taken changes the value read through the reference the caller
received, and a caller mutation to `[[7]]` through that reference changes
the store — both halves of the independence claim are false. -/
theorem getPressureReadings_alias_cex :
    ¬ (Alias.deref (Alias.storeUpdate ⟨[[[0]]]⟩ ⟨0⟩ [[5]])
          (Alias.getPressureReadingsRef ⟨0⟩)
        = Alias.deref ⟨[[[0]]]⟩ (Alias.getPressureReadingsRef ⟨0⟩))
    ∧ ¬ (Alias.deref (Alias.mutate ⟨[[[0]]]⟩ (Alias.getPressureReadingsRef ⟨0⟩) [[7]])
          (Alias.Obj.mk 0).pressuresAddr
        = Alias.deref ⟨[[[0]]]⟩ (Alias.Obj.mk 0).pressuresAddr) := by
  decide

/-- C8 amended: `getPressureReadings` returns the store's own list by
reference, not an independent copy — a store update after the call is
visible through the value the caller received, and mutating the returned
structure mutates the store. -/
theorem getPressureReadings_alias (m : Alias.Mem) (o : Alias.Obj)
    (rows1 rows2 : List (List Int)) (h : o.pressuresAddr < m.heap.length) :
    Alias.getPressureReadingsRef o = o.pressuresAddr
    ∧ Alias.deref (Alias.storeUpdate m o rows1)
        (Alias.getPressureReadingsRef o) = rows1
    ∧ Alias.deref (Alias.mutate m (Alias.getPressureReadingsRef o) rows2)
        o.pressuresAddr = rows2 := by
  refine ⟨rfl, ?_, ?_⟩ <;>
  · simp only [Alias.deref, Alias.storeUpdate, Alias.mutate,
      Alias.getPressureReadingsRef]
    rw [List.getD_eq_getElem?_getD, List.getElem?_set_self (by simpa using h)]
    rfl

/-- C8 amended witness: the concrete one-cell heap from the
counterexample. -/
theorem getPressureReadings_alias_witness :
    (Alias.Obj.mk 0).pressuresAddr < (Alias.Mem.mk [[[0]]]).heap.length
    ∧ Alias.deref (Alias.storeUpdate ⟨[[[0]]]⟩ ⟨0⟩ [[5]])
        (Alias.getPressureReadingsRef ⟨0⟩) = [[5]] :=
  ⟨by decide,
    (getPressureReadings_alias ⟨[[[0]]]⟩ ⟨0⟩ [[5]] [[7]] (by decide)).2.1⟩

end PieZense
